import Mathlib

/-
Verification development for pyion's `_mem.c` extension module
(`pyion_sdr_dump` and `pyion_psm_dump`).

The C source is shallowly embedded as follows.

* `size_t` / `unsigned long` values are 64-bit machine words, modelled as
  `Nat` with explicit reduction modulo `2 ^ 64` (`trunc`, `uadd`, `usub`).
* The ION collaborator calls (`sdr_start_using`, `sdr_usage`, `sdr_end_xn`,
  `sdr_stop_using`, `sm_ipc_init`, `memmgr_open`, `psm_usage`) are black-box
  reads of an environment (`SdrEnv` / `PsmEnv`) holding the arena state the
  collaborators would report; each operation is read-only, matching the
  observability-only contract of the module.  Every collaborator invocation
  is additionally recorded as an event in a trace, so that resource
  acquisition/release discipline is visible in the model.
* The helpers from `_utils.c` (`sdr_pybegin_xn`, `pyion_SetExc`) are not part
  of the sources; they are modelled from the spec: `sdr_pybegin_xn` attempts
  to begin a transaction and reports failure by a false return having set a
  transaction error, and `pyion_SetExc` formats a message with the offending
  identity interpolated.
* The Python dictionaries built with `PyDict_New` / `PyDict_SetItem` are
  association lists in insertion order, `PyDict_SetItem` overwriting an
  existing key in place; the aggregate dictionary built by `Py_BuildValue`
  is an association list from field-name strings to machine words.
* The build-time allocator constants `WORD_SIZE`, `SMALL_SIZES` and
  `LARGE_ORDERS` come from ION headers that are outside the sources; per the
  spec they are configuration, modelled as the parameters of `AllocConfig`.
-/

namespace Pyion

/-- Modulus of a 64-bit machine word (`size_t` / `unsigned long`). -/
def W64 : Nat := 2 ^ 64

/-- Conversion of an integer value to `size_t`/`unsigned long`: reduce modulo `2 ^ 64`. -/
def trunc (n : Nat) : Nat := n % W64

/-- C `size_t` addition: wraps modulo `2 ^ 64`. -/
def uadd (a b : Nat) : Nat := (a + b) % W64

/-- C `size_t` subtraction: wraps modulo `2 ^ 64`. -/
def usub (a b : Nat) : Nat := (a % W64 + (W64 - b % W64)) % W64

/-- Allocator build-time constants, taken from the ION headers
(`WORD_SIZE`, `SMALL_SIZES`, `LARGE_ORDERS`).  They are configuration of the
collaborator, not user input. -/
structure AllocConfig where
  wordSize : Nat
  smallSizes : Nat
  largeOrders : Nat

/-- The `SdrUsageSummary` structure filled in by `sdr_usage`.  The free-block
counter arrays have length `SMALL_SIZES` resp. `LARGE_ORDERS` in C; they are
modelled as functions, read only at indices below those bounds. -/
structure SdrUsageSummary where
  smallPoolFree : Nat
  smallPoolAllocated : Nat
  smallPoolSize : Nat
  largePoolFree : Nat
  largePoolAllocated : Nat
  largePoolSize : Nat
  heapSize : Nat
  unusedSize : Nat
  smallPoolFreeBlockCount : Nat → Nat
  largePoolFreeBlockCount : Nat → Nat

/-- The `PsmUsageSummary` structure filled in by `psm_usage`. -/
structure PsmUsageSummary where
  smallPoolFree : Nat
  smallPoolAllocated : Nat
  smallPoolSize : Nat
  largePoolFree : Nat
  largePoolAllocated : Nat
  largePoolSize : Nat
  partitionSize : Nat
  unusedSize : Nat
  smallPoolFreeBlockCount : Nat → Nat
  largePoolFreeBlockCount : Nat → Nat

/-- `PyDict_SetItem` on a dictionary modelled as an association list in
insertion order: overwrite the value of an existing key in place, otherwise
append the new entry. -/
def dictInsert (d : List (Nat × Nat)) (k v : Nat) : List (Nat × Nat) :=
  if d.any (fun p => p.1 == k) then
    d.map (fun p => if p.1 == k then (k, v) else p)
  else
    d ++ [(k, v)]

/-- State of the small-pool histogram loop after `n` iterations: the running
`sp_blk_size` accumulator together with the dictionary built so far.  Mirrors
the loop `for (i = 0; i < SMALL_SIZES; i++) { sp_blk_size += WORD_SIZE; ... }`
of both dump functions. -/
def smallState (wordSize n : Nat) (counts : Nat → Nat) : Nat × List (Nat × Nat) :=
  (List.range n).foldl
    (fun st i =>
      let sz := trunc (st.1 + wordSize)
      (sz, dictInsert st.2 sz (trunc (counts i))))
    (0, ([] : List (Nat × Nat)))

/-- The small-pool free-block histogram (`sp_blocks`). -/
def smallHist (wordSize n : Nat) (counts : Nat → Nat) : List (Nat × Nat) :=
  (smallState wordSize n counts).2

/-- State of the large-pool histogram loop after `n` iterations: the running
`lp_blk_size` accumulator (initialised to `WORD_SIZE`, doubled each step)
together with the dictionary built so far. -/
def largeState (wordSize n : Nat) (counts : Nat → Nat) : Nat × List (Nat × Nat) :=
  (List.range n).foldl
    (fun st i =>
      let sz := trunc (st.1 * 2)
      (sz, dictInsert st.2 sz (trunc (counts i))))
    (trunc wordSize, ([] : List (Nat × Nat)))

/-- The large-pool free-block histogram (`lp_blocks`). -/
def largeHist (wordSize n : Nat) (counts : Nat → Nat) : List (Nat × Nat) :=
  (largeState wordSize n counts).2

/-- The structured value returned by a successful dump: the aggregate
dictionary (field name to machine word, in build order) and the two
histograms. -/
structure PySnapshot where
  summary : List (String × Nat)
  sp_blocks : List (Nat × Nat)
  lp_blocks : List (Nat × Nat)
deriving DecidableEq, Repr

/-- Python-level errors raised by the module, in the taxonomy of the spec
(`AttachError`, `TransactionError`, `IpcInitError`), each carrying the
formatted message. -/
inductive PyErr where
  | attachError (msg : String)
  | transactionError (msg : String)
  | ipcInitError (msg : String)
deriving DecidableEq, Repr

/-- Collaborator invocations performed by `pyion_sdr_dump`, in order. -/
inductive SdrEvent where
  | sdrInit
  | startUsing (name : String)
  | beginXn
  | usageQuery
  | endXn
  | stopUsing
deriving DecidableEq, Repr

/-- Collaborator invocations performed by `pyion_psm_dump`, in order. -/
inductive PsmEvent where
  | ipcInit
  | memOpen
  | usageQuery
deriving DecidableEq, Repr

/-- Arena state observed by the SDR collaborators during one call: whether
`sdr_start_using` returns a handle, whether beginning and ending the
transaction succeed, and the usage summary `sdr_usage` reports. -/
structure SdrEnv where
  attachOk : Bool
  beginOk : Bool
  endOk : Bool
  usage : SdrUsageSummary

/-- Arena state observed by the PSM collaborators during one call. -/
structure PsmEnv where
  ipcInitOk : Bool
  openOk : Bool
  usage : PsmUsageSummary

/-- Collaborator `sdr_start_using`: read-only query whether the named arena
can be attached. -/
def op_sdr_start_using (w : SdrEnv) : Bool × SdrEnv := (w.attachOk, w)

/-- Helper `sdr_pybegin_xn`.  Modelled from the spec: the helper from
`_utils.c` (not in the sources) attempts to begin a read transaction and
signals failure by a false return. -/
def op_sdr_begin_xn (w : SdrEnv) : Bool × SdrEnv := (w.beginOk, w)

/-- Collaborator `sdr_usage`: read-only snapshot of the usage summary. -/
def op_sdr_usage (w : SdrEnv) : SdrUsageSummary × SdrEnv := (w.usage, w)

/-- Collaborator `sdr_end_xn`: releases the transaction, reporting success or
failure; read-only with respect to the arena usage state. -/
def op_sdr_end_xn (w : SdrEnv) : Bool × SdrEnv := (w.endOk, w)

/-- Collaborator `sdr_stop_using`: releases the arena handle. -/
def op_sdr_stop_using (w : SdrEnv) : Unit × SdrEnv := ((), w)

/-- Collaborator `sm_ipc_init`: true when the return code is nonnegative. -/
def op_sm_ipc_init (w : PsmEnv) : Bool × PsmEnv := (w.ipcInitOk, w)

/-- Collaborator `memmgr_open`: receives the key, requested size and
partition name; true when the return code is nonnegative. -/
def op_memmgr_open (_k _s : Int) (_name : String) (w : PsmEnv) : Bool × PsmEnv :=
  (w.openOk, w)

/-- Collaborator `psm_usage`: read-only snapshot of the usage summary. -/
def op_psm_usage (w : PsmEnv) : PsmUsageSummary × PsmEnv := (w.usage, w)

/-- The successful return value of `pyion_sdr_dump`: the aggregate
dictionary in the order built by `Py_BuildValue`, with the derived
`heap_used = hp_size - (sp_avail + lp_avail + hp_avail)` and
`max_heap_used = hp_size - hp_avail` in `size_t` arithmetic, and the two
histograms. -/
def sdrSnapshot (cfg : AllocConfig) (u : SdrUsageSummary) : PySnapshot :=
  let sp_avail := trunc u.smallPoolFree
  let sp_used := trunc u.smallPoolAllocated
  let sp_total := trunc u.smallPoolSize
  let lp_avail := trunc u.largePoolFree
  let lp_used := trunc u.largePoolAllocated
  let lp_total := trunc u.largePoolSize
  let hp_size := trunc u.heapSize
  let hp_avail := trunc u.unusedSize
  let hp_used := usub hp_size (uadd (uadd sp_avail lp_avail) hp_avail)
  let hp_max_u := usub hp_size hp_avail
  { summary := [
      ("small_pool_avail", sp_avail),
      ("small_pool_used", sp_used),
      ("small_pool_total", sp_total),
      ("large_pool_avail", lp_avail),
      ("large_pool_used", lp_used),
      ("large_pool_total", lp_total),
      ("heap_size", hp_size),
      ("heap_avail", hp_avail),
      ("heap_used", hp_used),
      ("max_heap_used", hp_max_u)],
    sp_blocks := smallHist cfg.wordSize cfg.smallSizes u.smallPoolFreeBlockCount,
    lp_blocks := largeHist cfg.wordSize cfg.largeOrders u.largePoolFreeBlockCount }

/-- Embedding of `pyion_sdr_dump` (`_mem.c`, lines 77-155).  Returns the
Python-level result, the trace of collaborator invocations, and the final
arena state.  Control flow mirrors the source: attach failure and
transaction failures return immediately (in particular without
`sdr_stop_using`); on success the histograms and aggregates are computed
after the transaction has ended and the handle is released last. -/
def sdr_dump (cfg : AllocConfig) (w0 : SdrEnv) (sdrName : String) :
    Except PyErr PySnapshot × List SdrEvent × SdrEnv :=
  let (ok0, w1) := op_sdr_start_using w0
  let tr1 : List SdrEvent := [.sdrInit, .startUsing sdrName]
  if !ok0 then
    (.error (.attachError
        ("Could not attach to SDR with name \x27" ++ sdrName ++ "\x27.")),
      tr1, w1)
  else
    let (okB, w2) := op_sdr_begin_xn w1
    let tr2 := tr1 ++ [.beginXn]
    if !okB then
      (.error (.transactionError "Cannot start SDR transaction."), tr2, w2)
    else
      let (u, w3) := op_sdr_usage w2
      let tr3 := tr2 ++ [.usageQuery]
      let (okE, w4) := op_sdr_end_xn w3
      let tr4 := tr3 ++ [.endXn]
      if !okE then
        (.error (.transactionError "Cannot end SDR transaction."), tr4, w4)
      else
        let (_, w5) := op_sdr_stop_using w4
        let tr5 := tr4 ++ [.stopUsing]
        (.ok (sdrSnapshot cfg u), tr5, w5)

/-- The successful return value of `pyion_psm_dump`: the aggregate
dictionary in the order built by `Py_BuildValue` (note the partition-level
field names `wm_size` and `wm_avail`), and the two histograms. -/
def psmSnapshot (cfg : AllocConfig) (u : PsmUsageSummary) : PySnapshot :=
  let sp_avail := trunc u.smallPoolFree
  let sp_used := trunc u.smallPoolAllocated
  let sp_total := trunc u.smallPoolSize
  let lp_avail := trunc u.largePoolFree
  let lp_used := trunc u.largePoolAllocated
  let lp_total := trunc u.largePoolSize
  let wm_size := trunc u.partitionSize
  let wm_avail := trunc u.unusedSize
  { summary := [
      ("small_pool_avail", sp_avail),
      ("small_pool_used", sp_used),
      ("small_pool_total", sp_total),
      ("large_pool_avail", lp_avail),
      ("large_pool_used", lp_used),
      ("large_pool_total", lp_total),
      ("wm_size", wm_size),
      ("wm_avail", wm_avail)],
    sp_blocks := smallHist cfg.wordSize cfg.smallSizes u.smallPoolFreeBlockCount,
    lp_blocks := largeHist cfg.wordSize cfg.largeOrders u.largePoolFreeBlockCount }

/-- Embedding of `pyion_psm_dump` (`_mem.c`, lines 161-238).  Returns the
Python-level result, the trace of collaborator invocations, and the final
arena state.  The usage summary is read directly after `memmgr_open`, with
no transaction and no explicit release. -/
def psm_dump (cfg : AllocConfig) (w0 : PsmEnv) (memKey : Int) (memSize : Int)
    (partitionName : String) :
    Except PyErr PySnapshot × List PsmEvent × PsmEnv :=
  let (okI, w1) := op_sm_ipc_init w0
  let tr1 : List PsmEvent := [.ipcInit]
  if !okI then
    (.error (.ipcInitError "IPC initialization failed."), tr1, w1)
  else
    let (okO, w2) := op_memmgr_open memKey memSize partitionName w1
    let tr2 := tr1 ++ [.memOpen]
    if !okO then
      (.error (.attachError
          ("Can\x27t attach to PSM with key \x27" ++ toString memKey ++ "\x27.")),
        tr2, w2)
    else
      let (u, w3) := op_psm_usage w2
      let tr3 := tr2 ++ [.usageQuery]
      (.ok (psmSnapshot cfg u), tr3, w3)

/- ------------------------------------------------------------------
Machine-arithmetic helper lemmas.
------------------------------------------------------------------ -/

theorem trunc_eq_of_lt {a : Nat} (h : a < W64) : trunc a = a :=
  Nat.mod_eq_of_lt h

theorem uadd_eq_of_lt {a b : Nat} (h : a + b < W64) : uadd a b = a + b :=
  Nat.mod_eq_of_lt h

theorem usub_eq_of_le {a b : Nat} (hb : b ≤ a) (ha : a < W64) : usub a b = a - b := by
  have hbW : b < W64 := lt_of_le_of_lt hb ha
  unfold usub
  rw [Nat.mod_eq_of_lt ha, Nat.mod_eq_of_lt hbW]
  have hsplit : a + (W64 - b) = W64 + (a - b) := by omega
  rw [hsplit, Nat.add_mod_left]
  exact Nat.mod_eq_of_lt (by omega)

/- ------------------------------------------------------------------
Dictionary and histogram-loop lemmas.
------------------------------------------------------------------ -/

theorem dictInsert_of_fresh {d : List (Nat × Nat)} {k : Nat} (v : Nat)
    (h : k ∉ d.map Prod.fst) : dictInsert d k v = d ++ [(k, v)] := by
  have hany : d.any (fun p => p.1 == k) = false := by
    rw [List.any_eq_false]
    intro p hp
    simp only [beq_iff_eq]
    intro hk
    exact h (List.mem_map.mpr ⟨p, hp, hk⟩)
  simp [dictInsert, hany]

theorem dictInsert_map_fst {d₁ d₂ : List (Nat × Nat)} (k v₁ v₂ : Nat)
    (h : d₁.map Prod.fst = d₂.map Prod.fst) :
    (dictInsert d₁ k v₁).map Prod.fst = (dictInsert d₂ k v₂).map Prod.fst := by
  have hkey : ∀ (d : List (Nat × Nat)) (v : Nat),
      (d.map (fun p => if p.1 == k then (k, v) else p)).map Prod.fst
        = (d.map Prod.fst).map (fun a => if a == k then k else a) := by
    intro d v
    rw [List.map_map, List.map_map]
    apply List.map_congr_left
    intro p _
    by_cases hp : p.1 = k
    · simp [hp]
    · simp [hp]
  have hany : ∀ (d : List (Nat × Nat)),
      d.any (fun p => p.1 == k) = (d.map Prod.fst).any (fun a => a == k) := by
    intro d
    induction d with
    | nil => rfl
    | cons p t ih => simp [List.any_cons, ih]
  unfold dictInsert
  rw [hany d₁, hany d₂, h]
  by_cases hb : (d₂.map Prod.fst).any (fun a => a == k) = true
  · rw [if_pos hb, if_pos hb, hkey, hkey, h]
  · rw [if_neg hb, if_neg hb, List.map_append, List.map_append, h]
    simp

theorem smallState_succ (w n : Nat) (c : Nat → Nat) :
    smallState w (n + 1) c =
      (trunc ((smallState w n c).1 + w),
        dictInsert (smallState w n c).2 (trunc ((smallState w n c).1 + w))
          (trunc (c n))) := by
  unfold smallState
  rw [List.range_succ, List.foldl_append]
  simp

theorem largeState_succ (w n : Nat) (c : Nat → Nat) :
    largeState w (n + 1) c =
      (trunc ((largeState w n c).1 * 2),
        dictInsert (largeState w n c).2 (trunc ((largeState w n c).1 * 2))
          (trunc (c n))) := by
  unfold largeState
  rw [List.range_succ, List.foldl_append]
  simp

theorem smallState_eq (w : Nat) (c : Nat → Nat) (hw : 0 < w) :
    ∀ n, w * n < W64 →
      smallState w n c
        = (w * n, (List.range n).map (fun i => (w * (i + 1), trunc (c i)))) := by
  intro n
  induction n with
  | zero => intro _; simp [smallState]
  | succ n ih =>
    intro hn
    have hn' : w * n < W64 :=
      lt_of_le_of_lt (Nat.mul_le_mul_left w (Nat.le_succ n)) hn
    have hmul : w * n + w = w * (n + 1) := (Nat.mul_succ w n).symm
    rw [smallState_succ, ih hn']
    have hkey : trunc (w * n + w) = w * (n + 1) := by
      rw [hmul]; exact Nat.mod_eq_of_lt hn
    have hfresh : w * (n + 1) ∉
        ((List.range n).map (fun i => (w * (i + 1), trunc (c i)))).map Prod.fst := by
      simp only [List.map_map, List.mem_map, List.mem_range, Function.comp]
      rintro ⟨i, hi, hik⟩
      have h1 : w * (i + 1) ≤ w * n := Nat.mul_le_mul_left w hi
      omega
    simp only [hkey]
    rw [dictInsert_of_fresh _ hfresh, List.range_succ, List.map_append]
    simp

theorem largeState_eq (w : Nat) (c : Nat → Nat) (hw : 0 < w) :
    ∀ n, w * 2 ^ n < W64 →
      largeState w n c
        = (w * 2 ^ n, (List.range n).map (fun i => (w * 2 ^ (i + 1), trunc (c i)))) := by
  intro n
  induction n with
  | zero =>
    intro h
    have hwW : w < W64 := by simpa using h
    simp [largeState, trunc_eq_of_lt hwW]
  | succ n ih =>
    intro hn
    have hpow : w * 2 ^ n ≤ w * 2 ^ (n + 1) :=
      Nat.mul_le_mul_left w (Nat.pow_le_pow_right (by omega) (Nat.le_succ n))
    have hn' : w * 2 ^ n < W64 := lt_of_le_of_lt hpow hn
    have hmul : w * 2 ^ n * 2 = w * 2 ^ (n + 1) := by
      rw [Nat.mul_assoc, ← Nat.pow_succ]
    rw [largeState_succ, ih hn']
    have hkey : trunc (w * 2 ^ n * 2) = w * 2 ^ (n + 1) := by
      rw [hmul]; exact Nat.mod_eq_of_lt hn
    have hfresh : w * 2 ^ (n + 1) ∉
        ((List.range n).map (fun i => (w * 2 ^ (i + 1), trunc (c i)))).map Prod.fst := by
      simp only [List.map_map, List.mem_map, List.mem_range, Function.comp]
      rintro ⟨i, hi, hik⟩
      have h1 : 2 ^ (i + 1) ≤ 2 ^ n := Nat.pow_le_pow_right (by omega) hi
      have h2 : w * 2 ^ (i + 1) ≤ w * 2 ^ n := Nat.mul_le_mul_left w h1
      have h3 : 0 < 2 ^ n := Nat.pos_pow_of_pos n (by omega)
      have h4 : 0 < w * 2 ^ n := Nat.mul_pos hw h3
      omega
    simp only [hkey]
    rw [dictInsert_of_fresh _ hfresh, List.range_succ, List.map_append]
    simp

theorem smallHist_eq (w n : Nat) (c : Nat → Nat) (hw : 0 < w) (hn : w * n < W64) :
    smallHist w n c = (List.range n).map (fun i => (w * (i + 1), trunc (c i))) := by
  unfold smallHist
  rw [smallState_eq w c hw n hn]

theorem largeHist_eq (w n : Nat) (c : Nat → Nat) (hw : 0 < w) (hn : w * 2 ^ n < W64) :
    largeHist w n c = (List.range n).map (fun i => (w * 2 ^ (i + 1), trunc (c i))) := by
  unfold largeHist
  rw [largeState_eq w c hw n hn]

theorem smallState_counts_irrel (w n : Nat) (c₁ c₂ : Nat → Nat) :
    (smallState w n c₁).1 = (smallState w n c₂).1 ∧
      (smallState w n c₁).2.map Prod.fst = (smallState w n c₂).2.map Prod.fst := by
  induction n with
  | zero => exact ⟨rfl, rfl⟩
  | succ n ih =>
    obtain ⟨h1, h2⟩ := ih
    rw [smallState_succ, smallState_succ]
    exact ⟨by rw [h1], by rw [h1]; exact dictInsert_map_fst _ _ _ h2⟩

theorem largeState_counts_irrel (w n : Nat) (c₁ c₂ : Nat → Nat) :
    (largeState w n c₁).1 = (largeState w n c₂).1 ∧
      (largeState w n c₁).2.map Prod.fst = (largeState w n c₂).2.map Prod.fst := by
  induction n with
  | zero => exact ⟨rfl, rfl⟩
  | succ n ih =>
    obtain ⟨h1, h2⟩ := ih
    rw [largeState_succ, largeState_succ]
    exact ⟨by rw [h1], by rw [h1]; exact dictInsert_map_fst _ _ _ h2⟩

/- ------------------------------------------------------------------
Inversion and invariance lemmas for the two dump functions.
------------------------------------------------------------------ -/

theorem sdr_dump_ok {cfg : AllocConfig} {w : SdrEnv} {name : String} {r : PySnapshot}
    (h : (sdr_dump cfg w name).1 = .ok r) :
    w.attachOk = true ∧ w.beginOk = true ∧ w.endOk = true
      ∧ r = sdrSnapshot cfg w.usage := by
  cases hA : w.attachOk <;> cases hB : w.beginOk <;> cases hE : w.endOk <;>
    simp_all [sdr_dump, op_sdr_start_using, op_sdr_begin_xn, op_sdr_usage,
      op_sdr_end_xn, op_sdr_stop_using]

theorem psm_dump_ok {cfg : AllocConfig} {w : PsmEnv} {k s : Int} {name : String}
    {r : PySnapshot} (h : (psm_dump cfg w k s name).1 = .ok r) :
    w.ipcInitOk = true ∧ w.openOk = true ∧ r = psmSnapshot cfg w.usage := by
  cases hI : w.ipcInitOk <;> cases hO : w.openOk <;>
    simp_all [psm_dump, op_sm_ipc_init, op_memmgr_open, op_psm_usage]

theorem sdr_dump_world (cfg : AllocConfig) (w : SdrEnv) (name : String) :
    (sdr_dump cfg w name).2.2 = w := by
  cases hA : w.attachOk <;> cases hB : w.beginOk <;> cases hE : w.endOk <;>
    simp [sdr_dump, op_sdr_start_using, op_sdr_begin_xn, op_sdr_usage,
      op_sdr_end_xn, op_sdr_stop_using, hA, hB, hE]

theorem psm_dump_world (cfg : AllocConfig) (w : PsmEnv) (k s : Int) (name : String) :
    (psm_dump cfg w k s name).2.2 = w := by
  cases hI : w.ipcInitOk <;> cases hO : w.openOk <;>
    simp [psm_dump, op_sm_ipc_init, op_memmgr_open, op_psm_usage, hI, hO]

/- ------------------------------------------------------------------
Exact-arithmetic lemmas for the derived heap aggregates.
------------------------------------------------------------------ -/

theorem sdr_heap_used_exact (u : SdrUsageSummary) (hH : u.heapSize < W64)
    (hle : u.smallPoolFree + u.largePoolFree + u.unusedSize ≤ u.heapSize) :
    usub (trunc u.heapSize)
        (uadd (uadd (trunc u.smallPoolFree) (trunc u.largePoolFree))
          (trunc u.unusedSize))
      = u.heapSize - (u.smallPoolFree + u.largePoolFree + u.unusedSize) := by
  have h1 : u.smallPoolFree < W64 := by omega
  have h2 : u.largePoolFree < W64 := by omega
  have h3 : u.unusedSize < W64 := by omega
  rw [trunc_eq_of_lt hH, trunc_eq_of_lt h1, trunc_eq_of_lt h2, trunc_eq_of_lt h3,
    @uadd_eq_of_lt u.smallPoolFree u.largePoolFree (by omega),
    uadd_eq_of_lt (by omega)]
  exact usub_eq_of_le hle hH

theorem sdr_max_heap_used_exact (u : SdrUsageSummary) (hH : u.heapSize < W64)
    (hle : u.unusedSize ≤ u.heapSize) :
    usub (trunc u.heapSize) (trunc u.unusedSize) = u.heapSize - u.unusedSize := by
  have h3 : u.unusedSize < W64 := by omega
  rw [trunc_eq_of_lt hH, trunc_eq_of_lt h3]
  exact usub_eq_of_le hle hH

/- ------------------------------------------------------------------
Concrete configurations and arena states used by witnesses and
counterexamples.  cfg0 uses the usual ION build values of WORD_SIZE,
SMALL_SIZES and LARGE_ORDERS on a 64-bit platform.
------------------------------------------------------------------ -/

def zeroCounts : Nat → Nat := fun _ => 0

def cfg0 : AllocConfig := ⟨8, 64, 29⟩

/-- The usage summary of the worked numeric example of the spec:
heap size 1,000,000; heap avail 100,000; small-pool avail 50,000;
large-pool avail 20,000. -/
def usage1 : SdrUsageSummary :=
  ⟨50000, 1, 50001, 20000, 2, 20002, 1000000, 100000, zeroCounts, zeroCounts⟩

def env1 : SdrEnv := ⟨true, true, true, usage1⟩

/-- A usage summary whose fields make the `size_t` subtraction
`heapSize - unusedSize` wrap around. -/
def usageWrap : SdrUsageSummary := ⟨0, 0, 0, 0, 0, 0, 0, 1, zeroCounts, zeroCounts⟩

def envWrap : SdrEnv := ⟨true, true, true, usageWrap⟩

def envAttachFail : SdrEnv := ⟨false, true, true, usage1⟩

def envBeginFail : SdrEnv := ⟨true, false, true, usage1⟩

def envEndFail : SdrEnv := ⟨true, true, false, usage1⟩

def pusage1 : PsmUsageSummary :=
  ⟨40000, 3, 40003, 30000, 4, 30004, 500000, 60000, zeroCounts, zeroCounts⟩

def penv1 : PsmEnv := ⟨true, true, pusage1⟩

def penvIpcFail : PsmEnv := ⟨false, true, pusage1⟩

def penvOpenFail : PsmEnv := ⟨true, false, pusage1⟩

/- ------------------------------------------------------------------
Claim theorems.
------------------------------------------------------------------ -/

/-- C1: For every usage summary read by a successful call of the transactional
reader with heap_size = H, heap_avail = HA, small_pool_avail = SA,
large_pool_avail = LA, the returned aggregate record contains exactly
heap_used = H - (SA + LA + HA) and max_heap_used = H - HA, the subtraction
being the `size_t` subtraction the code performs; whenever no underflow
occurs these are the exact natural-number differences. -/
theorem sdr_dump_heap_aggregates (cfg : AllocConfig) (w : SdrEnv) (name : String)
    (r : PySnapshot) (h : (sdr_dump cfg w name).1 = .ok r) :
    r.summary.lookup "heap_used"
        = some (usub (trunc w.usage.heapSize)
            (uadd (uadd (trunc w.usage.smallPoolFree) (trunc w.usage.largePoolFree))
              (trunc w.usage.unusedSize)))
      ∧ r.summary.lookup "max_heap_used"
        = some (usub (trunc w.usage.heapSize) (trunc w.usage.unusedSize))
      ∧ (w.usage.heapSize < W64 →
          w.usage.smallPoolFree + w.usage.largePoolFree + w.usage.unusedSize
              ≤ w.usage.heapSize →
          r.summary.lookup "heap_used"
            = some (w.usage.heapSize
                - (w.usage.smallPoolFree + w.usage.largePoolFree + w.usage.unusedSize)))
      ∧ (w.usage.heapSize < W64 → w.usage.unusedSize ≤ w.usage.heapSize →
          r.summary.lookup "max_heap_used"
            = some (w.usage.heapSize - w.usage.unusedSize)) := by
  obtain ⟨-, -, -, hr⟩ := sdr_dump_ok h
  subst hr
  refine ⟨rfl, rfl, fun hH hle => ?_, fun hH hle => ?_⟩
  · have hbase : (sdrSnapshot cfg w.usage).summary.lookup "heap_used"
        = some (usub (trunc w.usage.heapSize)
            (uadd (uadd (trunc w.usage.smallPoolFree) (trunc w.usage.largePoolFree))
              (trunc w.usage.unusedSize))) := rfl
    rw [hbase, sdr_heap_used_exact w.usage hH hle]
  · have hbase : (sdrSnapshot cfg w.usage).summary.lookup "max_heap_used"
        = some (usub (trunc w.usage.heapSize) (trunc w.usage.unusedSize)) := rfl
    rw [hbase, sdr_max_heap_used_exact w.usage hH hle]

/-- C1 witness: at the spec's worked example (H = 1,000,000, HA = 100,000,
SA = 50,000, LA = 20,000) the reader outputs heap_used = 830,000 and
max_heap_used = 900,000. -/
theorem sdr_dump_heap_aggregates_witness :
    (sdrSnapshot cfg0 usage1).summary.lookup "heap_used" = some 830000
      ∧ (sdrSnapshot cfg0 usage1).summary.lookup "max_heap_used" = some 900000 := by
  have h := sdr_dump_heap_aggregates cfg0 env1 "ion" (sdrSnapshot cfg0 usage1) rfl
  exact ⟨h.2.2.1 (by decide) (by decide), h.2.2.2 (by decide) (by decide)⟩

/-- C3 counterexample: a usage summary with heap_size = 0 and heap_avail = 1
is read successfully, but the `size_t` subtraction wraps, so the returned
max_heap_used is 2^64 - 1, which is not at most heap_size = 0.  Hence the
claimed invariant does not hold for all field values of the summary. -/
theorem sdr_dump_heap_invariant_cex :
    (sdr_dump cfg0 envWrap "ion").1 = .ok (sdrSnapshot cfg0 usageWrap)
      ∧ (sdrSnapshot cfg0 usageWrap).summary.lookup "max_heap_used"
          = some (2 ^ 64 - 1)
      ∧ (sdrSnapshot cfg0 usageWrap).summary.lookup "heap_size" = some 0
      ∧ ¬ (2 ^ 64 - 1 ≤ (0 : Nat)) :=
  ⟨rfl, rfl, rfl, by decide⟩

/-- C3 amended: for every usage summary read by the transactional reader in
which the available bytes do not exceed the heap size (no `size_t`
underflow; heap fields are machine words), the derived aggregates satisfy
heap_used ≤ max_heap_used ≤ heap_size. -/
theorem sdr_dump_heap_invariant_of_no_underflow (cfg : AllocConfig) (w : SdrEnv)
    (name : String) (r : PySnapshot) (h : (sdr_dump cfg w name).1 = .ok r)
    (hH : w.usage.heapSize < W64)
    (hle : w.usage.smallPoolFree + w.usage.largePoolFree + w.usage.unusedSize
        ≤ w.usage.heapSize) :
    ∃ hu mhu hs : Nat,
      r.summary.lookup "heap_used" = some hu
        ∧ r.summary.lookup "max_heap_used" = some mhu
        ∧ r.summary.lookup "heap_size" = some hs
        ∧ hu ≤ mhu ∧ mhu ≤ hs := by
  obtain ⟨-, -, -, hr⟩ := sdr_dump_ok h
  subst hr
  refine ⟨w.usage.heapSize
      - (w.usage.smallPoolFree + w.usage.largePoolFree + w.usage.unusedSize),
    w.usage.heapSize - w.usage.unusedSize, w.usage.heapSize, ?_, ?_, ?_, ?_, ?_⟩
  · have hbase : (sdrSnapshot cfg w.usage).summary.lookup "heap_used"
        = some (usub (trunc w.usage.heapSize)
            (uadd (uadd (trunc w.usage.smallPoolFree) (trunc w.usage.largePoolFree))
              (trunc w.usage.unusedSize))) := rfl
    rw [hbase, sdr_heap_used_exact w.usage hH hle]
  · have hbase : (sdrSnapshot cfg w.usage).summary.lookup "max_heap_used"
        = some (usub (trunc w.usage.heapSize) (trunc w.usage.unusedSize)) := rfl
    rw [hbase, sdr_max_heap_used_exact w.usage hH (by omega)]
  · have hbase : (sdrSnapshot cfg w.usage).summary.lookup "heap_size"
        = some (trunc w.usage.heapSize) := rfl
    rw [hbase, trunc_eq_of_lt hH]
  · omega
  · omega

/-- C3 amended witness: the invariant holds at the spec's worked example. -/
theorem sdr_dump_heap_invariant_witness :
    ∃ hu mhu hs : Nat,
      (sdrSnapshot cfg0 usage1).summary.lookup "heap_used" = some hu
        ∧ (sdrSnapshot cfg0 usage1).summary.lookup "max_heap_used" = some mhu
        ∧ (sdrSnapshot cfg0 usage1).summary.lookup "heap_size" = some hs
        ∧ hu ≤ mhu ∧ mhu ≤ hs :=
  sdr_dump_heap_invariant_of_no_underflow cfg0 env1 "ion" (sdrSnapshot cfg0 usage1)
    rfl (by decide) (by decide)

/-- C2 (evidence of a code bug): on the transaction-acquisition-failure and
transaction-end-failure paths, `pyion_sdr_dump` returns while the arena
handle obtained by `sdr_start_using` is still held: the trace records
`startUsing` but no `stopUsing`, contradicting the required release of the
handle on every exit path. -/
theorem sdr_dump_handle_leak :
    ((sdr_dump cfg0 envEndFail "ion").1
        = .error (.transactionError "Cannot end SDR transaction."))
      ∧ SdrEvent.startUsing "ion" ∈ (sdr_dump cfg0 envEndFail "ion").2.1
      ∧ SdrEvent.stopUsing ∉ (sdr_dump cfg0 envEndFail "ion").2.1
      ∧ SdrEvent.startUsing "ion" ∈ (sdr_dump cfg0 envBeginFail "ion").2.1
      ∧ SdrEvent.stopUsing ∉ (sdr_dump cfg0 envBeginFail "ion").2.1 :=
  ⟨rfl, by decide, by decide, by decide, by decide⟩

/-- Events of the transactional reader that touch the transaction or read
usage under it. -/
def isXnEvent : SdrEvent → Bool
  | .beginXn => true
  | .usageQuery => true
  | .endXn => true
  | _ => false

/-- C7: in every call of the transactional reader the usage query happens
only between beginning and ending the transaction; a successfully acquired
transaction is ended exactly once on every exit path; and if transaction
acquisition fails, no usage read is attempted and the call terminates with
an error. -/
theorem sdr_dump_xn_bracketing (cfg : AllocConfig) (w : SdrEnv) (name : String) :
    ((sdr_dump cfg w name).2.1.filter isXnEvent
        = if w.attachOk then
            if w.beginOk then [.beginXn, .usageQuery, .endXn] else [.beginXn]
          else [])
      ∧ ((sdr_dump cfg w name).2.1.count SdrEvent.endXn
          = if w.attachOk && w.beginOk then 1 else 0)
      ∧ (SdrEvent.usageQuery ∈ (sdr_dump cfg w name).2.1
          → w.attachOk = true ∧ w.beginOk = true)
      ∧ (w.attachOk = true → w.beginOk = false →
          ∃ e, (sdr_dump cfg w name).1 = .error e) := by
  cases hA : w.attachOk <;> cases hB : w.beginOk <;> cases hE : w.endOk <;>
    simp_all [sdr_dump, op_sdr_start_using, op_sdr_begin_xn, op_sdr_usage,
      op_sdr_end_xn, op_sdr_stop_using, isXnEvent, List.filter, List.count_cons]

/-- C7 witness: on a fully successful call the transaction events are
exactly begin, usage query, end; on a call whose transaction acquisition
fails the call returns an error. -/
theorem sdr_dump_xn_bracketing_witness :
    (sdr_dump cfg0 env1 "ion").2.1.filter isXnEvent
        = [.beginXn, .usageQuery, .endXn]
      ∧ (∃ e, (sdr_dump cfg0 envBeginFail "ion").1 = .error e) := by
  have h := sdr_dump_xn_bracketing cfg0 env1 "ion"
  have h' := sdr_dump_xn_bracketing cfg0 envBeginFail "ion"
  exact ⟨h.1, h'.2.2.2 rfl rfl⟩

/-- C8: every collaborator failure signal (null handle from attach-by-name,
failed transaction acquisition, negative return code from IPC init or
partition open) makes the call terminate with the corresponding typed error
and no snapshot; the attach errors interpolate the offending arena name or
key into the message. -/
theorem dump_error_mapping (cfg : AllocConfig) (w w' : SdrEnv) (p p' : PsmEnv)
    (name : String) (k s : Int) (pname : String) :
    (w.attachOk = false →
        (sdr_dump cfg w name).1
          = .error (.attachError
              ("Could not attach to SDR with name \x27" ++ name ++ "\x27.")))
      ∧ (w'.attachOk = true → w'.beginOk = false →
          (sdr_dump cfg w' name).1
            = .error (.transactionError "Cannot start SDR transaction."))
      ∧ (p.ipcInitOk = false →
          (psm_dump cfg p k s pname).1
            = .error (.ipcInitError "IPC initialization failed."))
      ∧ (p'.ipcInitOk = true → p'.openOk = false →
          (psm_dump cfg p' k s pname).1
            = .error (.attachError
                ("Can\x27t attach to PSM with key \x27" ++ toString k ++ "\x27."))) := by
  refine ⟨fun h1 => ?_, fun h2a h2b => ?_, fun h3 => ?_, fun h4a h4b => ?_⟩ <;>
    simp [sdr_dump, psm_dump, op_sdr_start_using, op_sdr_begin_xn,
      op_sm_ipc_init, op_memmgr_open, *]

/-- C8 witness: concrete failing arenas produce exactly the mapped errors,
with the arena name and the key interpolated. -/
theorem dump_error_mapping_witness :
    (sdr_dump cfg0 envAttachFail "ion").1
        = .error (.attachError "Could not attach to SDR with name \x27ion\x27.")
      ∧ (sdr_dump cfg0 envBeginFail "ion").1
        = .error (.transactionError "Cannot start SDR transaction.")
      ∧ (psm_dump cfg0 penvIpcFail 17 1000 "part").1
        = .error (.ipcInitError "IPC initialization failed.")
      ∧ (psm_dump cfg0 penvOpenFail 17 1000 "part").1
        = .error (.attachError "Can\x27t attach to PSM with key \x2717\x27.") := by
  have h := dump_error_mapping cfg0 envAttachFail envBeginFail penvIpcFail
    penvOpenFail "ion" 17 1000 "part"
  exact ⟨h.1 rfl, h.2.1 rfl rfl, h.2.2.1 rfl, h.2.2.2 rfl rfl⟩

/-- C4 counterexample: a successful direct-reader call returns an aggregate
record whose partition-level fields are named wm_size and wm_avail; no field
is named partition_size or partition_avail. -/
theorem psm_dump_partition_field_names_cex :
    (psm_dump cfg0 penv1 17 1000 "part").1 = .ok (psmSnapshot cfg0 pusage1)
      ∧ ((psmSnapshot cfg0 pusage1).summary.map Prod.fst).contains "partition_size"
          = false
      ∧ ((psmSnapshot cfg0 pusage1).summary.map Prod.fst).contains "partition_avail"
          = false
      ∧ ((psmSnapshot cfg0 pusage1).summary.map Prod.fst).contains "wm_size" = true
      ∧ ((psmSnapshot cfg0 pusage1).summary.map Prod.fst).contains "wm_avail" = true :=
  ⟨rfl, rfl, rfl, rfl, rfl⟩

/-- C4 amended: every successful call of the direct reader returns an
aggregate record listing the six pool fields followed by partition-level
fields named exactly wm_size and wm_avail, alongside the two histogram
mappings. -/
theorem psm_dump_field_names (cfg : AllocConfig) (w : PsmEnv) (k s : Int)
    (pname : String) (r : PySnapshot)
    (h : (psm_dump cfg w k s pname).1 = .ok r) :
    r.summary.map Prod.fst
        = ["small_pool_avail", "small_pool_used", "small_pool_total",
           "large_pool_avail", "large_pool_used", "large_pool_total",
           "wm_size", "wm_avail"]
      ∧ r.sp_blocks
          = smallHist cfg.wordSize cfg.smallSizes w.usage.smallPoolFreeBlockCount
      ∧ r.lp_blocks
          = largeHist cfg.wordSize cfg.largeOrders w.usage.largePoolFreeBlockCount := by
  obtain ⟨-, -, hr⟩ := psm_dump_ok h
  subst hr
  exact ⟨rfl, rfl, rfl⟩

/-- C4 amended witness: the field names of a concrete successful call. -/
theorem psm_dump_field_names_witness :
    (psmSnapshot cfg0 pusage1).summary.map Prod.fst
        = ["small_pool_avail", "small_pool_used", "small_pool_total",
           "large_pool_avail", "large_pool_used", "large_pool_total",
           "wm_size", "wm_avail"] :=
  (psm_dump_field_names cfg0 penv1 17 1000 "part" (psmSnapshot cfg0 pusage1) rfl).1

/-- C5: in every histogram returned by either reader (for a configuration
with positive WORD_SIZE whose largest key fits in a machine word), the
small-pool key for index i is WORD_SIZE*(i+1), the large-pool key for index
i is WORD_SIZE*2^(i+1), and within each histogram the keys are strictly
increasing in i. -/
theorem dump_histogram_key_progressions (cfg : AllocConfig) (w : SdrEnv)
    (p : PsmEnv) (name : String) (k s : Int) (pname : String)
    (r1 r2 : PySnapshot)
    (hw : 0 < cfg.wordSize)
    (hsmall : cfg.wordSize * cfg.smallSizes < W64)
    (hlarge : cfg.wordSize * 2 ^ cfg.largeOrders < W64)
    (h1 : (sdr_dump cfg w name).1 = .ok r1)
    (h2 : (psm_dump cfg p k s pname).1 = .ok r2) :
    r1.sp_blocks.map Prod.fst
        = (List.range cfg.smallSizes).map (fun i => cfg.wordSize * (i + 1))
      ∧ r1.lp_blocks.map Prod.fst
        = (List.range cfg.largeOrders).map (fun i => cfg.wordSize * 2 ^ (i + 1))
      ∧ r2.sp_blocks.map Prod.fst
        = (List.range cfg.smallSizes).map (fun i => cfg.wordSize * (i + 1))
      ∧ r2.lp_blocks.map Prod.fst
        = (List.range cfg.largeOrders).map (fun i => cfg.wordSize * 2 ^ (i + 1))
      ∧ List.Pairwise (· < ·) (r1.sp_blocks.map Prod.fst)
      ∧ List.Pairwise (· < ·) (r1.lp_blocks.map Prod.fst)
      ∧ List.Pairwise (· < ·) (r2.sp_blocks.map Prod.fst)
      ∧ List.Pairwise (· < ·) (r2.lp_blocks.map Prod.fst) := by
  obtain ⟨-, -, -, hr1⟩ := sdr_dump_ok h1
  obtain ⟨-, -, hr2⟩ := psm_dump_ok h2
  subst hr1; subst hr2
  have hsk : ∀ c : Nat → Nat,
      (smallHist cfg.wordSize cfg.smallSizes c).map Prod.fst
        = (List.range cfg.smallSizes).map (fun i => cfg.wordSize * (i + 1)) := by
    intro c
    rw [smallHist_eq _ _ c hw hsmall, List.map_map]
    exact List.map_congr_left fun i _ => rfl
  have hlk : ∀ c : Nat → Nat,
      (largeHist cfg.wordSize cfg.largeOrders c).map Prod.fst
        = (List.range cfg.largeOrders).map (fun i => cfg.wordSize * 2 ^ (i + 1)) := by
    intro c
    rw [largeHist_eq _ _ c hw hlarge, List.map_map]
    exact List.map_congr_left fun i _ => rfl
  have hps : List.Pairwise (· < ·)
      ((List.range cfg.smallSizes).map (fun i => cfg.wordSize * (i + 1))) := by
    refine List.Pairwise.map _ ?_ (List.pairwise_lt_range _)
    intro a b hab
    exact mul_lt_mul_of_pos_left (by omega) hw
  have hpl : List.Pairwise (· < ·)
      ((List.range cfg.largeOrders).map (fun i => cfg.wordSize * 2 ^ (i + 1))) := by
    refine List.Pairwise.map _ ?_ (List.pairwise_lt_range _)
    intro a b hab
    have hp : (2 : Nat) ^ (a + 1) < 2 ^ (b + 1) :=
      Nat.pow_lt_pow_right (by omega) (by omega)
    exact mul_lt_mul_of_pos_left hp hw
  refine ⟨hsk _, hlk _, hsk _, hlk _, ?_, ?_, ?_, ?_⟩
  · rw [show ((sdrSnapshot cfg w.usage).sp_blocks.map Prod.fst) = _ from hsk _]
    exact hps
  · rw [show ((sdrSnapshot cfg w.usage).lp_blocks.map Prod.fst) = _ from hlk _]
    exact hpl
  · rw [show ((psmSnapshot cfg p.usage).sp_blocks.map Prod.fst) = _ from hsk _]
    exact hps
  · rw [show ((psmSnapshot cfg p.usage).lp_blocks.map Prod.fst) = _ from hlk _]
    exact hpl

/-- C5 witness: at WORD_SIZE 8, SMALL_SIZES 64, LARGE_ORDERS 29 a pair of
successful calls has arithmetic small-pool keys and strictly increasing
large-pool keys. -/
theorem dump_histogram_key_progressions_witness :
    (sdrSnapshot cfg0 usage1).sp_blocks.map Prod.fst
        = (List.range 64).map (fun i => 8 * (i + 1))
      ∧ List.Pairwise (· < ·) ((psmSnapshot cfg0 pusage1).lp_blocks.map Prod.fst) := by
  have h := dump_histogram_key_progressions cfg0 env1 penv1 "ion" 17 1000 "part"
    (sdrSnapshot cfg0 usage1) (psmSnapshot cfg0 pusage1)
    (by decide) (by decide) (by decide) rfl rfl
  exact ⟨h.1, h.2.2.2.2.2.2.2⟩

/-- C6: for every successful call of either reader the small-pool histogram
has exactly SMALL_SIZES entries and the large-pool histogram exactly
LARGE_ORDERS entries, and the entry at index i carries the source counter
value at index i verbatim under the derived key. -/
theorem dump_histogram_lengths_and_values (cfg : AllocConfig) (w : SdrEnv)
    (p : PsmEnv) (name : String) (k s : Int) (pname : String)
    (r1 r2 : PySnapshot)
    (hw : 0 < cfg.wordSize)
    (hsmall : cfg.wordSize * cfg.smallSizes < W64)
    (hlarge : cfg.wordSize * 2 ^ cfg.largeOrders < W64)
    (h1 : (sdr_dump cfg w name).1 = .ok r1)
    (h2 : (psm_dump cfg p k s pname).1 = .ok r2) :
    r1.sp_blocks.length = cfg.smallSizes
      ∧ r1.lp_blocks.length = cfg.largeOrders
      ∧ r2.sp_blocks.length = cfg.smallSizes
      ∧ r2.lp_blocks.length = cfg.largeOrders
      ∧ (∀ i, i < cfg.smallSizes → w.usage.smallPoolFreeBlockCount i < W64 →
          r1.sp_blocks[i]?
            = some (cfg.wordSize * (i + 1), w.usage.smallPoolFreeBlockCount i))
      ∧ (∀ i, i < cfg.largeOrders → w.usage.largePoolFreeBlockCount i < W64 →
          r1.lp_blocks[i]?
            = some (cfg.wordSize * 2 ^ (i + 1), w.usage.largePoolFreeBlockCount i))
      ∧ (∀ i, i < cfg.smallSizes → p.usage.smallPoolFreeBlockCount i < W64 →
          r2.sp_blocks[i]?
            = some (cfg.wordSize * (i + 1), p.usage.smallPoolFreeBlockCount i))
      ∧ (∀ i, i < cfg.largeOrders → p.usage.largePoolFreeBlockCount i < W64 →
          r2.lp_blocks[i]?
            = some (cfg.wordSize * 2 ^ (i + 1), p.usage.largePoolFreeBlockCount i)) := by
  obtain ⟨-, -, -, hr1⟩ := sdr_dump_ok h1
  obtain ⟨-, -, hr2⟩ := psm_dump_ok h2
  subst hr1; subst hr2
  have hslen : ∀ c : Nat → Nat,
      (smallHist cfg.wordSize cfg.smallSizes c).length = cfg.smallSizes := by
    intro c
    rw [smallHist_eq _ _ c hw hsmall]
    simp
  have hllen : ∀ c : Nat → Nat,
      (largeHist cfg.wordSize cfg.largeOrders c).length = cfg.largeOrders := by
    intro c
    rw [largeHist_eq _ _ c hw hlarge]
    simp
  have hsval : ∀ (c : Nat → Nat) i, i < cfg.smallSizes → c i < W64 →
      (smallHist cfg.wordSize cfg.smallSizes c)[i]?
        = some (cfg.wordSize * (i + 1), c i) := by
    intro c i hi hc
    rw [smallHist_eq _ _ c hw hsmall, List.getElem?_map, List.getElem?_range hi]
    simp [trunc_eq_of_lt hc]
  have hlval : ∀ (c : Nat → Nat) i, i < cfg.largeOrders → c i < W64 →
      (largeHist cfg.wordSize cfg.largeOrders c)[i]?
        = some (cfg.wordSize * 2 ^ (i + 1), c i) := by
    intro c i hi hc
    rw [largeHist_eq _ _ c hw hlarge, List.getElem?_map, List.getElem?_range hi]
    simp [trunc_eq_of_lt hc]
  exact ⟨hslen _, hllen _, hslen _, hllen _,
    fun i hi hc => hsval _ i hi hc, fun i hi hc => hlval _ i hi hc,
    fun i hi hc => hsval _ i hi hc, fun i hi hc => hlval _ i hi hc⟩

/-- C6 witness: concrete successful calls yield 64 small-pool entries and
29 large-pool entries, and the first small-pool entry is the counter at
index 0 under key WORD_SIZE. -/
theorem dump_histogram_lengths_values_witness :
    (sdrSnapshot cfg0 usage1).sp_blocks.length = 64
      ∧ (sdrSnapshot cfg0 usage1).lp_blocks.length = 29
      ∧ (psmSnapshot cfg0 pusage1).sp_blocks.length = 64
      ∧ (sdrSnapshot cfg0 usage1).sp_blocks[0]? = some (8, 0) := by
  have h := dump_histogram_lengths_and_values cfg0 env1 penv1 "ion" 17 1000 "part"
    (sdrSnapshot cfg0 usage1) (psmSnapshot cfg0 pusage1)
    (by decide) (by decide) (by decide) rfl rfl
  exact ⟨h.1, h.2.1, h.2.2.1, h.2.2.2.2.1 0 (by decide) (by decide)⟩

/-- C9: two consecutive calls of either entry point with the same arguments
against an unchanged (quiescent) arena return identical structured results:
each call leaves the arena state unchanged, and the result is a function of
the arena state and the arguments only, with no cross-call state. -/
theorem dump_deterministic_consecutive (cfg : AllocConfig) (w : SdrEnv)
    (p : PsmEnv) (name : String) (k s : Int) (pname : String) :
    (sdr_dump cfg ((sdr_dump cfg w name).2.2) name).1 = (sdr_dump cfg w name).1
      ∧ (psm_dump cfg ((psm_dump cfg p k s pname).2.2) k s pname).1
          = (psm_dump cfg p k s pname).1 := by
  rw [sdr_dump_world, psm_dump_world]
  exact ⟨rfl, rfl⟩

/-- C10: for every pair of successful calls, one per reader, under the same
allocator configuration, the key lists of the two small-pool histograms
coincide and the key lists of the two large-pool histograms coincide,
independently of the counter values read. -/
theorem dump_histogram_keys_agree (cfg : AllocConfig) (w : SdrEnv) (p : PsmEnv)
    (name : String) (k s : Int) (pname : String) (r1 r2 : PySnapshot)
    (h1 : (sdr_dump cfg w name).1 = .ok r1)
    (h2 : (psm_dump cfg p k s pname).1 = .ok r2) :
    r1.sp_blocks.map Prod.fst = r2.sp_blocks.map Prod.fst
      ∧ r1.lp_blocks.map Prod.fst = r2.lp_blocks.map Prod.fst := by
  obtain ⟨-, -, -, hr1⟩ := sdr_dump_ok h1
  obtain ⟨-, -, hr2⟩ := psm_dump_ok h2
  subst hr1; subst hr2
  exact ⟨(smallState_counts_irrel _ _ _ _).2, (largeState_counts_irrel _ _ _ _).2⟩

/-- C10 witness: the key lists agree for a concrete pair of successful
calls with different counter values. -/
theorem dump_histogram_keys_agree_witness :
    (sdrSnapshot cfg0 usage1).sp_blocks.map Prod.fst
        = (psmSnapshot cfg0 pusage1).sp_blocks.map Prod.fst
      ∧ (sdrSnapshot cfg0 usage1).lp_blocks.map Prod.fst
        = (psmSnapshot cfg0 pusage1).lp_blocks.map Prod.fst :=
  dump_histogram_keys_agree cfg0 env1 penv1 "ion" 17 1000 "part"
    (sdrSnapshot cfg0 usage1) (psmSnapshot cfg0 pusage1) rfl rfl

end Pyion
